import Mathlib

/-!
Shallow embedding of the identity kernel in
catwatch/blueprints/user/models.py (class User), together with proofs
about its operations.  The persistent store is modelled as a list of
user rows; SQLAlchemy query combinators become list operations; the
external libraries (flask-bcrypt, itsdangerous) are modelled by
abstract function parameters or by small symbolic structures whose
behaviour follows their documented contracts.
-/

/-- Symbolic result of flask-bcrypt generate_password_hash.  The
library is external to this repository, so the hash value is left
abstract: an arbitrary function producing a BcryptHash stands for it,
and theorems quantify over that function. -/
structure BcryptHash where
  cost : Nat
  digest : String
deriving DecidableEq, Repr

/-- One row of the users table.  Columns of models.py lines 25-54 that
the verified operations touch; billing linkage fields are opaque to
this core and omitted. -/
structure User where
  id : Nat
  role : String
  active : Bool
  username : Option String
  email : String
  password : Option BcryptHash
  name : Option String
  sign_in_count : Nat
  current_sign_in_on : Option Nat
  current_sign_in_ip : Option String
  last_sign_in_on : Option Nat
  last_sign_in_ip : Option String
deriving DecidableEq, Repr

/-- Embeds User.encrypt_password (models.py lines 100-112): a truthy
(non-empty) plaintext is hashed with the cost constant 8, an empty one
yields None.  The external bcrypt.generate_password_hash call is the
abstract parameter gen. -/
def User.encrypt_password (gen : String → Nat → BcryptHash)
    (plaintext_password : String) : Option BcryptHash :=
  if plaintext_password = "" then none
  else some (gen plaintext_password 8)

/-- Models Python str.lower: character-wise lowercasing. -/
def str_lower (s : String) : String := String.mk (s.data.map Char.toLower)

/-- Embeds User.__init__ (models.py lines 56-65) together with the
column defaults of lines 35-54: the username kwarg is lowercased when
present, the password kwarg is hashed through encrypt_password, role
defaults to member and active to true. -/
def User.init (gen : String → Nat → BcryptHash) (id : Nat)
    (username : Option String) (email : String) (password : String) : User :=
  { id := id
    role := "member"
    active := true
    username := username.map (fun s => str_lower s)
    email := email
    password := User.encrypt_password gen password
    name := none
    sign_in_count := 0
    current_sign_in_on := none
    current_sign_in_ip := none
    last_sign_in_on := none
    last_sign_in_ip := none }

/-- Embeds User.find_by_identity (models.py lines 88-98):
filter((User.email == identity) | (User.username == identity)).first()
over the store.  SQLAlchemy renders a comparison with Python None as
IS NULL, and the email column is declared non-null, so a None identity
can only match rows whose username is NULL. -/
def User.find_by_identity (db : List User) (identity : Option String) :
    Option User :=
  match identity with
  | some s => db.find? (fun u => u.email == s || u.username == some s)
  | none => db.find? (fun u => u.username == none)

/-- Embeds User.is_last_admin (models.py lines 132-154).  The source
line active_count = User.query.filter(User.is_active is True).count()
compares the method object User.is_active with True by identity; that
expression is the Python constant False, SQLAlchemy coerces
filter(False) to WHERE false, and the count is therefore taken over
the constantly-false predicate.  Deactivation is indicated by the
callers passing None (new_active is None). -/
def User.is_last_admin (db : List User) (user : User) (new_role : String)
    (new_active : Option Bool) : Bool :=
  let is_changing_roles := user.role == "admin" && new_role != "admin"
  let is_changing_active := user.active == true && new_active == none
  if is_changing_roles || is_changing_active then
    let admin_count := (db.filter (fun u => u.role == "admin")).length
    let active_count := (db.filter (fun _ => false)).length
    if admin_count == 1 || active_count == 1 then true else false
  else false

/-- Embeds User.authenticated (models.py lines 183-196); the external
flask-bcrypt check_password_hash call is the abstract parameter. -/
def User.authenticated (check_password_hash : Option BcryptHash → String → Bool)
    (self : User) (with_password : Bool) (password : String) : Bool :=
  if with_password then check_password_hash self.password password else true

/-- Decoded JSON payload of a signed token: a string-to-string map,
as produced by TimedJSONWebSignatureSerializer.loads. -/
abbrev Payload := List (String × String)

/-- Models dict.get on a decoded payload. -/
def payload_get (p : Payload) (key : String) : Option String :=
  (p.find? (fun kv => kv.1 == key)).map (fun kv => kv.2)

/-- Failure modes of itsdangerous token loading: BadSignature,
SignatureExpired, BadPayload. -/
inductive TokenError where
  | badSignature
  | expired
  | badPayload
deriving DecidableEq, Repr

/-- Models a token produced by TimedJSONWebSignatureSerializer.dumps:
a signed envelope carrying the JSON payload, the embedded expiry
timestamp, and (standing for the signature) the key it was signed
with. -/
structure TJWSToken where
  payload : Payload
  exp : Nat
  key : String
deriving DecidableEq, Repr

/-- Models TimedJSONWebSignatureSerializer.loads at clock time now:
the token verifies iff it was signed with the same secret key and its
embedded expiry has not passed, and then yields its payload. -/
def tjws_loads (secret_key : String) (now : Nat) (tok : TJWSToken) :
    Except TokenError Payload :=
  if tok.key != secret_key then Except.error TokenError.badSignature
  else if tok.exp < now then Except.error TokenError.expired
  else Except.ok tok.payload

/-- Default of the expiration argument of User.serialize_token
(models.py line 198). -/
def serialize_token_default_expiration : Nat := 3600

/-- Embeds User.serialize_token (models.py lines 198-210): signs the
payload dict with key user_email bound to the email of the user, with
the given expiration window starting at clock time now. -/
def User.serialize_token (self : User) (secret_key : String) (now : Nat)
    (expiration : Nat) : TJWSToken :=
  { payload := [("user_email", self.email)]
    exp := now + expiration
    key := secret_key }

/-- Embeds User.deserialize_token (models.py lines 114-130): the whole
body runs under try/except Exception returning None, so any loads
failure maps to none and a successful load feeds
decoded_payload.get(user_email) into find_by_identity.  The loads
behaviour is an abstract parameter so that the theorems cover every
decoder outcome. -/
def User.deserialize_token {τ : Type} (loads : τ → Except TokenError Payload)
    (db : List User) (token : τ) : Option User :=
  match loads token with
  | Except.error _ => none
  | Except.ok decoded_payload =>
      User.find_by_identity db (payload_get decoded_payload "user_email")

/-- Embeds User.update_activity_tracking (models.py lines 212-229),
with datetime.datetime.utcnow() passed in as the clock value now. -/
def User.update_activity_tracking (self : User) (now : Nat)
    (ip_address : String) : User :=
  { self with
    sign_in_count := self.sign_in_count + 1
    last_sign_in_on := self.current_sign_in_on
    last_sign_in_ip := self.current_sign_in_ip
    current_sign_in_on := some now
    current_sign_in_ip := some ip_address }

/-- Concrete stand-in for the abstract bcrypt hash function, used to
evaluate the development on closed inputs. -/
def gen0 : String → Nat → BcryptHash := fun pw cost => { cost := cost, digest := pw }

/-- Sample row created through User.init with an upper-case username
kwarg. -/
def bob_user : User := User.init gen0 7 (some "BOB") "bob@example.com" "pw"

/-- Sample token not signed with the secret key in force. -/
def forged_token : TJWSToken := { payload := [], exp := 10, key := "other" }

/-- Sample row: an active administrator. -/
def admin_a : User :=
  { id := 1, role := "admin", active := true, username := some "ada"
    email := "ada@example.com", password := some (gen0 "pw" 8), name := some "Ada"
    sign_in_count := 0, current_sign_in_on := none, current_sign_in_ip := none
    last_sign_in_on := none, last_sign_in_ip := none }

/-- Sample row: a deactivated administrator. -/
def admin_b : User :=
  { id := 2, role := "admin", active := false, username := some "bea"
    email := "bea@example.com", password := some (gen0 "pw" 8), name := some "Bea"
    sign_in_count := 0, current_sign_in_on := none, current_sign_in_ip := none
    last_sign_in_on := none, last_sign_in_ip := none }

/-- Sample row: an ordinary active member. -/
def member_c : User :=
  { id := 3, role := "member", active := true, username := some "cyd"
    email := "cyd@example.com", password := some (gen0 "pw" 8), name := some "Cyd"
    sign_in_count := 0, current_sign_in_on := none, current_sign_in_ip := none
    last_sign_in_on := none, last_sign_in_ip := none }

/-- The two columns named by the search chain of User.search. -/
inductive SearchField where
  | email
  | name
deriving DecidableEq, Repr

/-- Reified SQLAlchemy filter value returned by User.search: either
the empty string returned for a falsy query, a column ILIKE pattern
clause, or an or_ of two clauses. -/
inductive SearchFilter where
  | emptyResult
  | ilike (field : SearchField) (pattern : String)
  | orF (a b : SearchFilter)
deriving DecidableEq, Repr

/-- Embeds User.search (models.py lines 67-86).  The fields parameter
is accepted and never used, as in the source; a falsy query returns
the empty string; otherwise the clause is
or_(User.email.ilike(search_query), User.name.ilike(search_query))
with search_query = the query wrapped in percent signs. -/
def User.search (query : String) (fields : List String) : SearchFilter :=
  if query = "" then SearchFilter.emptyResult
  else
    let search_query := "%" ++ query ++ "%"
    SearchFilter.orF (SearchFilter.ilike SearchField.email search_query)
      (SearchFilter.ilike SearchField.name search_query)

/-- Models the SQL LIKE pattern matcher with case-folded comparison
(ILIKE): percent matches any sequence, underscore any one character,
any other pattern character matches case-insensitively. -/
def like_match : List Char → List Char → Bool
  | [], s => s.isEmpty
  | p :: ps, s =>
    if p = '%' then
      (s.tails).any (fun t => like_match ps t)
    else
      match s with
      | [] => false
      | c :: s1 => (if p = '_' then true else p.toLower == c.toLower) && like_match ps s1

/-- Models column ILIKE pattern on string values. -/
def ilike_match (pattern s : String) : Bool := like_match pattern.data s.data

/-- SQL semantics of a reified filter on one row: a NULL name column
never satisfies an ILIKE clause, and the empty-string filter returned
for a falsy query is ambiguous in the source (spec section 9); it is
rendered here as matching nothing and no theorem depends on it. -/
def eval_filter : SearchFilter → User → Bool
  | SearchFilter.emptyResult, _ => false
  | SearchFilter.ilike SearchField.email pat, u => ilike_match pat u.email
  | SearchFilter.ilike SearchField.name pat, u =>
      match u.name with
      | none => false
      | some n => ilike_match pat n
  | SearchFilter.orF a b, u => eval_filter a u || eval_filter b u

theorem filter_const_false (l : List User) : l.filter (fun _ => false) = [] := by
  induction l with
  | nil => rfl
  | cons a l ih => simp [ih]

theorem find_first_unique {α : Type} {p : α → Bool} :
    ∀ {l : List α} {u : α}, u ∈ l → p u = true →
      (∀ v ∈ l, p v = true → v = u) → l.find? p = some u := by
  intro l
  induction l with
  | nil => intro u hu; cases hu
  | cons a l ih =>
    intro u hu hpu huniq
    by_cases ha : p a = true
    · have hau : a = u := huniq a (List.mem_cons_self a l) ha
      subst hau
      simp [ List.find?_cons_of_pos, ha]
    · have ha' : p a = false := by simpa using ha
      rw [ List.find?_cons_of_neg _ (by simp [ha'])]
      have hu' : u ∈ l := by
        rcases List.mem_cons.mp hu with h | h
        · exact absurd (h ▸ hpu) (by simp [ha'])
        · exact h
      exact ih hu' hpu (fun v hv hpv => huniq v (List.mem_cons_of_mem _ hv) hpv)

/-- C1: in a store whose only admin is the active user being edited,
is_last_admin forbids demoting that user to member while keeping them
active; in a store with exactly two admins the same call on either
admin is allowed. -/
theorem is_last_admin_one_admin_forbids_two_admins_allow :
    (∀ (db : List User) (a : User), a ∈ db → a.role = "admin" → a.active = true →
      (db.filter (fun u => u.role == "admin")).length = 1 →
      User.is_last_admin db a "member" (some true) = true)
    ∧ (∀ (db : List User) (a : User), a ∈ db → a.role = "admin" →
      (db.filter (fun u => u.role == "admin")).length = 2 →
      User.is_last_admin db a "member" (some true) = false) := by
  constructor
  · intro db a _ hrole _ hcount
    simp [User.is_last_admin, hrole, hcount]
  · intro db a _ hrole hcount
    simp [User.is_last_admin, hrole, hcount, filter_const_false]

theorem is_last_admin_one_admin_forbids_two_admins_allow_witness :
    User.is_last_admin [admin_a, member_c] admin_a "member" (some true) = true
    ∧ User.is_last_admin [admin_a, admin_b] admin_a "member" (some true) = false := by
  constructor
  · exact is_last_admin_one_admin_forbids_two_admins_allow.1
      [admin_a, member_c] admin_a (by decide) (by decide) (by decide) (by decide)
  · exact is_last_admin_one_admin_forbids_two_admins_allow.2
      [admin_a, admin_b] admin_a (by decide) (by decide) (by decide)

/-- C2: with two admins of which exactly one identity has the active
flag set, demoting the active admin is still allowed: the code never
consults the active flag (its active count is over the constant-false
filter), whereas the claim requires the change to be forbidden because
the active count is exactly 1. -/
theorem is_last_admin_ignores_active_flag_at_two_admins_one_active :
    User.is_last_admin [admin_a, admin_b] admin_a "member" (some true) = false
    ∧ ([admin_a, admin_b].filter (fun u => u.active)).length = 1 := by
  decide

/-- C3: the counting branch of is_last_admin engages exactly when the
edited user is an admin being given a non-admin role, or is active
while the new active value is the deactivation indicator None; in
every other case the result is false for every store, without any
count being consulted. -/
theorem is_last_admin_engages_iff_role_demotion_or_deactivation :
    ∀ (user : User) (new_role : String) (new_active : Option Bool),
      (((user.role = "admin" ∧ new_role ≠ "admin")
          ∨ (user.active = true ∧ new_active = none)) →
        ∀ db : List User, User.is_last_admin db user new_role new_active =
          (((db.filter (fun u => u.role == "admin")).length == 1)
            || ((db.filter (fun _ => false)).length == 1)))
      ∧ (¬ ((user.role = "admin" ∧ new_role ≠ "admin")
          ∨ (user.active = true ∧ new_active = none)) →
        ∀ db : List User, User.is_last_admin db user new_role new_active = false) := by
  intro user new_role new_active
  constructor
  · intro h db
    have hguard : (user.role == "admin" && new_role != "admin"
        || (user.active == true && new_active == none)) = true := by
      rcases h with ⟨h1, h2⟩ | ⟨h1, h2⟩
      · simp [h1, bne_iff_ne, h2]
      · simp [h1, h2]
    simp only [User.is_last_admin]
    rw [hguard]
    cases hc : (((db.filter (fun u => u.role == "admin")).length == 1)
        || ((db.filter (fun _ => false)).length == 1)) <;> simp [hc]
  · intro h db
    simp only [User.is_last_admin]
    have hguard : (user.role == "admin" && new_role != "admin"
        || (user.active == true && new_active == none)) = false := by
      cases hg : (user.role == "admin" && new_role != "admin"
        || (user.active == true && new_active == none))
      · rfl
      · exfalso
        apply h
        simpa [bne_iff_ne] using hg
    rw [hguard]
    simp

theorem is_last_admin_engages_iff_role_demotion_or_deactivation_witness :
    User.is_last_admin [admin_a] admin_a "member" (some true) =
      ((([admin_a].filter (fun u => u.role == "admin")).length == 1)
        || ((([admin_a] : List User).filter (fun _ => false)).length == 1))
    ∧ User.is_last_admin [member_c] member_c "guest" (some false) = false := by
  constructor
  · exact (is_last_admin_engages_iff_role_demotion_or_deactivation
      admin_a "member" (some true)).1 (Or.inl (by decide)) [admin_a]
  · exact (is_last_admin_engages_iff_role_demotion_or_deactivation
      member_c "guest" (some false)).2 (by decide) [member_c]

theorem mem_of_find_eq_some {α : Type} {p : α → Bool} :
    ∀ {l : List α} {a : α}, l.find? p = some a → a ∈ l := by
  intro l
  induction l with
  | nil => intro a h; simp at h
  | cons b l ih =>
    intro a h
    by_cases hb : p b = true
    · rw [ List.find?_cons_of_pos _ hb] at h
      cases h
      exact List.mem_cons_self b l
    · rw [ List.find?_cons_of_neg _ (by simp [hb])] at h
      exact List.mem_cons_of_mem _ (ih h)

/-- C4: deserialize_token is a total function into an optional user:
whenever the decoder fails (bad signature, malformed payload, expiry)
the result is the uniform none, and in every case the result is
either none or some user that is stored in the database, never a
partially decoded record.  The decoder is universally quantified, so
this holds for every decoder outcome on every token. -/
theorem deserialize_token_fails_closed :
    ∀ {τ : Type} (loads : τ → Except TokenError Payload)
      (db : List User) (token : τ),
      (∀ e : TokenError, loads token = Except.error e →
        User.deserialize_token loads db token = none)
      ∧ (User.deserialize_token loads db token = none
         ∨ ∃ u : User, u ∈ db ∧ User.deserialize_token loads db token = some u) := by
  intro τ loads db token
  constructor
  · intro e he
    simp [User.deserialize_token, he]
  · cases hl : loads token with
    | error e => left; simp [User.deserialize_token, hl]
    | ok p =>
      simp only [User.deserialize_token, hl]
      cases hf : User.find_by_identity db (payload_get p "user_email") with
      | none => left; rfl
      | some u =>
        right
        refine ⟨u, ?_, rfl⟩
        unfold User.find_by_identity at hf
        cases hpg : payload_get p "user_email" with
        | none =>
          rw [hpg] at hf
          exact mem_of_find_eq_some hf
        | some s =>
          rw [hpg] at hf
          exact mem_of_find_eq_some hf

theorem deserialize_token_fails_closed_witness :
    tjws_loads "secret" 0 forged_token = Except.error TokenError.badSignature
    ∧ User.deserialize_token (tjws_loads "secret" 0) [admin_a] forged_token = none :=
  ⟨by simp [tjws_loads, forged_token],
   (deserialize_token_fails_closed (tjws_loads "secret" 0) [admin_a] forged_token).1
     TokenError.badSignature (by simp [tjws_loads, forged_token])⟩

theorem tjws_loads_serialize (u : User) (secret_key : String) (now t e : Nat) :
    tjws_loads secret_key t (User.serialize_token u secret_key now e)
    = if now + e < t then Except.error TokenError.expired
      else Except.ok [("user_email", u.email)] := by
  unfold tjws_loads User.serialize_token
  simp

/-- C5: for a stored user that is the unique match for its own email,
resolving an action token right after issuing it with the default
expiration returns that user; the payload of the token carries the
email of the user under the user_email key, the default expiration
constant is 3600 seconds, and once the clock passes issuance time
plus that window the token resolves to none. -/
theorem serialize_token_round_trip_and_expiry :
    ∀ (db : List User) (u : User) (secret_key : String) (now : Nat),
      u ∈ db →
      (∀ v ∈ db, (v.email = u.email ∨ v.username = some u.email) → v = u) →
      serialize_token_default_expiration = 3600
      ∧ payload_get (User.serialize_token u secret_key now
          serialize_token_default_expiration).payload "user_email" = some u.email
      ∧ User.deserialize_token (tjws_loads secret_key now) db
          (User.serialize_token u secret_key now serialize_token_default_expiration)
          = some u
      ∧ (∀ later : Nat, now + serialize_token_default_expiration < later →
          User.deserialize_token (tjws_loads secret_key later) db
            (User.serialize_token u secret_key now serialize_token_default_expiration)
            = none) := by
  intro db u secret_key now hmem huniq
  refine ⟨rfl, rfl, ?_, ?_⟩
  · have hload : tjws_loads secret_key now
        (User.serialize_token u secret_key now serialize_token_default_expiration)
        = Except.ok [("user_email", u.email)] := by
      rw [tjws_loads_serialize, if_neg (by omega)]
    simp only [User.deserialize_token, hload]
    have hget : payload_get [("user_email", u.email)] "user_email" = some u.email := rfl
    rw [hget]
    unfold User.find_by_identity
    apply find_first_unique hmem
    · simp
    · intro v hv hpv
      apply huniq v hv
      simpa [Bool.or_eq_true, beq_iff_eq] using hpv
  · intro later hlater
    have hload : tjws_loads secret_key later
        (User.serialize_token u secret_key now serialize_token_default_expiration)
        = Except.error TokenError.expired := by
      rw [tjws_loads_serialize, if_pos (by omega)]
    simp [User.deserialize_token, hload]

theorem serialize_token_round_trip_and_expiry_witness :
    User.deserialize_token (tjws_loads "secret" 5) [member_c, admin_a]
      (User.serialize_token admin_a "secret" 5 serialize_token_default_expiration)
      = some admin_a
    ∧ User.deserialize_token (tjws_loads "secret" 3606) [member_c, admin_a]
      (User.serialize_token admin_a "secret" 5 serialize_token_default_expiration)
      = none := by
  have h := serialize_token_round_trip_and_expiry [member_c, admin_a] admin_a
    "secret" 5 (by decide) (by decide)
  exact ⟨h.2.2.1, h.2.2.2 3606 (by decide)⟩

/-- C7: encrypt_password yields an absent hash exactly on the empty
plaintext, and on every non-empty plaintext it applies the hash
function at the cost constant 8, independently of the input and for
every hash function. -/
theorem encrypt_password_empty_none_cost_eight :
    ∀ (gen : String → Nat → BcryptHash) (plaintext : String),
      (plaintext = "" → User.encrypt_password gen plaintext = none)
      ∧ (plaintext ≠ "" → User.encrypt_password gen plaintext = some (gen plaintext 8)) := by
  intro gen plaintext
  constructor
  · intro h; simp [User.encrypt_password, h]
  · intro h; simp [User.encrypt_password, h]

theorem encrypt_password_empty_none_cost_eight_witness :
    User.encrypt_password gen0 "" = none
    ∧ ("secret" ≠ "" ∧ User.encrypt_password gen0 "secret" = some (gen0 "secret" 8)) :=
  ⟨(encrypt_password_empty_none_cost_eight gen0 "").1 rfl,
   by decide,
   (encrypt_password_empty_none_cost_eight gen0 "secret").2 (by decide)⟩

/-- C8 counterexample: a user created with username BOB is stored with
username bob, and find_by_identity with the mixed-case query Bob
returns none rather than that user, because both comparisons are by
exact stored value. -/
theorem find_by_identity_mixed_case_query_misses :
    bob_user.username = some "bob"
    ∧ User.find_by_identity [bob_user] (some "Bob") = none := by
  constructor
  · rfl
  · rfl

/-- C8 amended: for a user created with username BOB, find_by_identity
returns that user when queried with the stored lowercase form bob (and
the user is the unique match); find_by_identity likewise returns a
stored user when queried with exactly its stored email. -/
theorem find_by_identity_lowercased_username_and_exact_email :
    (∀ (gen : String → Nat → BcryptHash) (id : Nat) (email pw : String)
        (db : List User) (u : User),
      u = User.init gen id (some "BOB") email pw → u ∈ db →
      (∀ v ∈ db, (v.email = "bob" ∨ v.username = some "bob") → v = u) →
      User.find_by_identity db (some "bob") = some u)
    ∧ (∀ (db : List User) (u : User), u ∈ db →
      (∀ v ∈ db, (v.email = u.email ∨ v.username = some u.email) → v = u) →
      User.find_by_identity db (some u.email) = some u) := by
  constructor
  · intro gen id email pw db u hu hmem huniq
    have husername : u.username = some "bob" := by
      subst hu; rfl
    unfold User.find_by_identity
    apply find_first_unique hmem
    · simp [husername]
    · intro v hv hpv
      apply huniq v hv
      simpa [Bool.or_eq_true, beq_iff_eq] using hpv
  · intro db u hmem huniq
    unfold User.find_by_identity
    apply find_first_unique hmem
    · simp
    · intro v hv hpv
      apply huniq v hv
      simpa [Bool.or_eq_true, beq_iff_eq] using hpv

theorem find_by_identity_lowercased_username_and_exact_email_witness :
    User.find_by_identity [admin_a, bob_user] (some "bob") = some bob_user
    ∧ User.find_by_identity [admin_a, bob_user] (some "bob@example.com")
        = some bob_user :=
  ⟨find_by_identity_lowercased_username_and_exact_email.1 gen0 7 "bob@example.com"
      "pw" [admin_a, bob_user] bob_user rfl (by decide) (by decide),
   find_by_identity_lowercased_username_and_exact_email.2 [admin_a, bob_user]
      bob_user (by decide) (by decide)⟩

/-- C9: one call of update_activity_tracking increments the sign-in
count by one, shifts the current sign-in timestamp and ip into the
last sign-in fields, and stores the clock value and given ip as the
current ones; two sequential calls at times t1 and t2 leave the first
time in the last sign-in slot, the second as current, and the count
larger by exactly two. -/
theorem update_activity_tracking_sequential_calls :
    ∀ (u : User) (t1 t2 : Nat) (ip1 ip2 : String),
      ((u.update_activity_tracking t1 ip1).sign_in_count = u.sign_in_count + 1)
      ∧ ((u.update_activity_tracking t1 ip1).last_sign_in_on = u.current_sign_in_on)
      ∧ ((u.update_activity_tracking t1 ip1).last_sign_in_ip = u.current_sign_in_ip)
      ∧ ((u.update_activity_tracking t1 ip1).current_sign_in_on = some t1)
      ∧ ((u.update_activity_tracking t1 ip1).current_sign_in_ip = some ip1)
      ∧ (((u.update_activity_tracking t1 ip1).update_activity_tracking t2 ip2).last_sign_in_on = some t1)
      ∧ (((u.update_activity_tracking t1 ip1).update_activity_tracking t2 ip2).last_sign_in_ip = some ip1)
      ∧ (((u.update_activity_tracking t1 ip1).update_activity_tracking t2 ip2).current_sign_in_on = some t2)
      ∧ (((u.update_activity_tracking t1 ip1).update_activity_tracking t2 ip2).sign_in_count = u.sign_in_count + 2) := by
  intro u t1 t2 ip1 ip2
  exact ⟨rfl, rfl, rfl, rfl, rfl, rfl, rfl, rfl, rfl⟩

theorem like_match_percent (ps : List Char) (s : List Char) :
    like_match ('%' :: ps) s = true ↔ ∃ t, t <:+ s ∧ like_match ps t = true := by
  simp [like_match, List.any_eq_true, List.mem_tails]

theorem like_match_literal_percent :
    ∀ (q : List Char), (∀ c ∈ q, c ≠ '%' ∧ c ≠ '_') →
    ∀ (s : List Char), (like_match (q ++ ['%']) s = true
      ↔ q.map Char.toLower <+: s.map Char.toLower) := by
  intro q
  induction q with
  | nil =>
    intro _ s
    simp only [List.nil_append, List.map_nil]
    constructor
    · intro _
      simp
    · intro _
      rw [like_match_percent]
      exact ⟨[], by simp, rfl⟩
  | cons a q ih =>
    intro hq s
    have ha : a ≠ '%' ∧ a ≠ '_' := hq a (List.mem_cons_self a q)
    have hq' : ∀ c ∈ q, c ≠ '%' ∧ c ≠ '_' :=
      fun c hc => hq c (List.mem_cons_of_mem a hc)
    cases s with
    | nil =>
      simp [like_match, ha.1, List.prefix_nil]
    | cons c s =>
      simp [List.cons_append, like_match, ha.1, ha.2,
        List.cons_prefix_cons, ih hq' s]

theorem ilike_contains (q : String) (hq : ∀ c ∈ q.data, c ≠ '%' ∧ c ≠ '_')
    (s : String) :
    ilike_match ("%" ++ q ++ "%") s = true
    ↔ q.data.map Char.toLower <:+: s.data.map Char.toLower := by
  have hdata : ("%" ++ q ++ "%").data = '%' :: (q.data ++ ['%']) := rfl
  simp only [ilike_match]
  rw [hdata, like_match_percent]
  constructor
  · rintro ⟨t, hts, hlm⟩
    rw [ List.infix_iff_prefix_suffix]
    exact ⟨t.map Char.toLower, (like_match_literal_percent q.data hq t).mp hlm,
      List.isSuffix_map_iff.mpr ⟨t, hts, rfl⟩⟩
  · intro hinf
    rw [ List.infix_iff_prefix_suffix] at hinf
    obtain ⟨t2, hpre, hsuf⟩ := hinf
    obtain ⟨t, hts, rfl⟩ := List.isSuffix_map_iff.mp hsuf
    exact ⟨t, hts, (like_match_literal_percent q.data hq t).mpr hpre⟩

/-- C10: User.search never looks at its fields argument, so any two
values of that argument give equal filters; for every non-empty query
the filter is the pair of ILIKE clauses on exactly the email and name
columns joined by or_, and (for a query without SQL wildcard
characters) a row satisfies it exactly when the lowercased query
occurs inside the lowercased email, or inside the lowercased name
when a name is present. -/
theorem search_ignores_fields_and_builds_contains_or :
    (∀ (query : String) (f1 f2 : List String),
      User.search query f1 = User.search query f2)
    ∧ (∀ (query : String) (fields : List String), query ≠ "" →
        User.search query fields = SearchFilter.orF
          (SearchFilter.ilike SearchField.email ("%" ++ query ++ "%"))
          (SearchFilter.ilike SearchField.name ("%" ++ query ++ "%")))
    ∧ (∀ (query : String) (fields : List String) (u : User), query ≠ "" →
        (∀ c ∈ query.data, c ≠ '%' ∧ c ≠ '_') →
        (eval_filter (User.search query fields) u = true
          ↔ query.data.map Char.toLower <:+: u.email.data.map Char.toLower
            ∨ ∃ n, u.name = some n
                ∧ query.data.map Char.toLower <:+: n.data.map Char.toLower)) := by
  refine ⟨fun query f1 f2 => rfl, ?_, ?_⟩
  · intro query fields hquery
    simp [User.search, hquery]
  · intro query fields u hquery hwf
    have hs : User.search query fields = SearchFilter.orF
        (SearchFilter.ilike SearchField.email ("%" ++ query ++ "%"))
        (SearchFilter.ilike SearchField.name ("%" ++ query ++ "%")) := by
      simp [User.search, hquery]
    rw [hs]
    simp only [eval_filter, Bool.or_eq_true]
    rw [ilike_contains query hwf u.email]
    cases hname : u.name with
    | none => simp
    | some n =>
      rw [ilike_contains query hwf n]
      simp

theorem search_ignores_fields_and_builds_contains_or_witness :
    ("da" : String) ≠ "" ∧ eval_filter (User.search "da" []) admin_a = true := by
  constructor
  · decide
  · have h := search_ignores_fields_and_builds_contains_or.2.2 "da" [] admin_a
      (by decide) (by decide)
    exact h.mpr (Or.inl (by decide))
